import Mathlib

/-!
Verification of the telemetry protocol decoder of the track-patient repository.

The definitions below are a shallow embedding of the TypeScript / Arduino
sources:
* the fragment-arrival handler (stream reassembler) embedded in the
  `rxChar.monitor` callback of `src/hooks/BLEContext.tsx` (lines 1103-1338);
* the ASCII packet decoders `parseLivePacket` / `parseTotalPacket` /
  `parseStatusPacket` / `parsePacket` and the converters
  `livePacketToPatientData` / `totalPacketToPatientData` of
  `src/components/custom/BLEDataLogs.tsx`;
* the JSON branch, merge engine (`mergeValue`) and registry-key logic of
  `src/hooks/PatientsContext.tsx`;
* the CRC-8 generator `calculateCRC8` of `src/esp32_ble_server.ino`.

JavaScript strings are modelled as `List Char`; JavaScript numbers as `ℚ`,
with `Option ℚ` (`none` playing the role of `NaN`) where a computation can
produce `NaN`; platform builtins (`parseInt`, `parseFloat`, `JSON.parse`)
are modelled explicitly below, restricted to the grammar the application
exercises (no escape sequences or exponent notation in JSON, no hex
`parseInt` inputs); ambient effects (`Date.now`, `Math.random`) are passed
in as explicit parameters.
-/

set_option allowUnsafeReducibility true
attribute [semireducible] Rat.mul Rat.add Rat.sub Rat.div Rat.inv Rat.ofScientific
set_option maxRecDepth 2000

/-- JavaScript strings are modelled as lists of characters. -/
abbrev JStr := List Char

/-- Shorthand turning a Lean string literal into the `List Char` model. -/
def js (s : String) : JStr := s.data

/-- JavaScript whitespace characters recognised by `String.prototype.trim`
(the subset that can occur in this protocol). -/
def isJSWhite (c : Char) : Bool :=
  c = ' ' ∨ c = '\t' ∨ c = '\n' ∨ c = '\r' ∨ c = '\x0b' ∨ c = '\x0c'

/-- Model of `String.prototype.trim`: drop whitespace from both ends. -/
def jsTrim (s : JStr) : JStr :=
  ((s.dropWhile isJSWhite).reverse.dropWhile isJSWhite).reverse

/-- ASCII digit test. -/
def isDigitC (c : Char) : Bool := '0' ≤ c ∧ c ≤ '9'

/-- Numeric value of an ASCII digit. -/
def digitVal (c : Char) : Nat := c.toNat - 48

/-- A JavaScript number that may be `NaN` (`none`). -/
abbrev JSNum := Option ℚ

/-- `NaN`-propagating addition. -/
def jsAdd : JSNum → JSNum → JSNum
  | some a, some b => some (a + b)
  | _, _ => none

/-- Subtract a constant, propagating `NaN`. -/
def jsSubC (x : JSNum) (c : ℚ) : JSNum := x.map (fun a => a - c)

/-- Divide by a constant, propagating `NaN`. -/
def jsDivC (x : JSNum) (c : ℚ) : JSNum := x.map (fun a => a / c)

/-- Multiply by a constant, propagating `NaN`. -/
def jsMulC (x : JSNum) (c : ℚ) : JSNum := x.map (fun a => a * c)

/-- Inject a possibly-`NaN` integer (`parseInt` result) into `JSNum`. -/
def jsOfInt (x : Option Int) : JSNum := x.map (fun n => (n : ℚ))

/-- The JavaScript comparison `x > 0`; false for `NaN`. -/
def jsGt0 : JSNum → Bool
  | some q => 0 < q
  | none => false

/-! ## Stream reassembler (`BLEContext.tsx` monitor callback) -/

/-- Index of the first occurrence of a character (JS `String.indexOf`). -/
def idxOfChar (c : Char) : JStr → Option Nat
  | [] => none
  | a :: r => if a = c then some 0 else (idxOfChar c r).map Nat.succ

/-- Index of the first occurrence of the substring `"DD"`
(JS `workingBuffer.indexOf('DD')`, with `none` for not-found). -/
def firstDD : JStr → Option Nat
  | 'D' :: 'D' :: _ => some 0
  | _ :: r => (firstDD r).map Nat.succ
  | [] => none

/-- Backwards scan of `BLEContext.tsx` lines 1281-1289: starting at index
`n - 1` and walking down, find the last `'D'` that is not immediately
preceded by another `'D'`. -/
def lastLoneDAux (wb : JStr) : Nat → Option Nat
  | 0 => none
  | i + 1 =>
    if wb.get? i = some 'D' ∧ (i = 0 ∨ wb.get? (i - 1) ≠ some 'D') then some i
    else lastLoneDAux wb i

/-- The last lone `'D'` of the whole buffer. -/
def lastLoneD (wb : JStr) : Option Nat := lastLoneDAux wb wb.length

/-- Brace-counting scan of `BLEContext.tsx` lines 1154-1203: walk the buffer
tracking `{`/`}` depth and return the start/end indices of the first
complete top-level JSON object. -/
def braceScan : JStr → Int → Option Nat → Nat → Option (Nat × Nat)
  | [], _, _, _ => none
  | c :: rest, bc, jstart, i =>
    if c = '{' then
      braceScan rest (bc + 1) (if bc = 0 then some i else jstart) (i + 1)
    else if c = '}' then
      match jstart, bc - 1 with
      | some s, 0 => some (s, i)
      | js', bc' => braceScan rest bc' js' (i + 1)
    else braceScan rest bc jstart (i + 1)

/-- Extraction of the first complete JSON object from the buffer, returning
the object text and the remaining buffer (everything after its close brace,
as in line 1199 of `BLEContext.tsx`). -/
def braceExtract (wb : JStr) : Option (JStr × JStr) :=
  match braceScan wb 0 none 0 with
  | some (s, e) => some ((wb.take (e + 1)).drop s, wb.drop (e + 1))
  | none => none

/-- Terminator-based packet extraction, `BLEContext.tsx` lines 1266-1293:
an `L`-prefixed buffer is cut at the first `"DD"` provided it sits at the
end of the buffer or is followed by a newline; a `T`/`S`-prefixed buffer is
cut after the last lone `'D'` provided its index is positive. -/
def extractPacket (wb : JStr) : Option JStr :=
  let viaL : Option JStr :=
    if wb.head? = some 'L' then
      match firstDD wb with
      | some dd =>
        if 0 < dd ∧ (dd + 2 = wb.length ∨ wb.get? (dd + 2) = some '\n') then
          some (wb.take (dd + 2))
        else none
      | none => none
    else none
  match viaL with
  | some p => some p
  | none =>
    if wb.head? = some 'T' ∨ wb.head? = some 'S' then
      match lastLoneD wb with
      | some i => if 0 < i then some (wb.take (i + 1)) else none
      | none => none
    else none

/-- The `while (processed)` loop of `BLEContext.tsx` lines 1218-1319, with
explicit fuel (each continuing iteration consumes at least one buffer
character, so `length + 1` fuel is always enough).  Returns the final
buffer and the extracted messages in order.  A newline yields the trimmed
prefix; when that prefix trims to nothing the newline is still consumed and
the same iteration falls through to packet extraction. -/
def processLoopF : Nat → JStr → JStr × List JStr
  | 0, wb => (wb, [])
  | fuel + 1, wb =>
    match idxOfChar '\n' wb with
    | some n =>
      let msg := jsTrim (wb.take n)
      let wb1 := wb.drop (n + 1)
      if msg.isEmpty then
        match extractPacket wb1 with
        | some p =>
          let r := processLoopF fuel (wb1.drop p.length)
          (r.1, p :: r.2)
        | none => (wb1, [])
      else
        let r := processLoopF fuel wb1
        (r.1, msg :: r.2)
    | none =>
      match extractPacket wb with
      | some p =>
        let r := processLoopF fuel (wb.drop p.length)
        (r.1, p :: r.2)
      | none => (wb, [])

/-- Result of one invocation of the fragment-arrival handler. -/
structure FeedResult where
  buffer : JStr
  messages : List JStr
  overflow : Bool
  deriving DecidableEq

/-- The large-buffer stage of the handler (`BLEContext.tsx` lines
1132-1204): when the appended buffer is longer than 50 characters and
holds no newline, apply the duplicate-chunk guard (first 20 characters
repeated at offset 20, line 1134-1150) and then brace-counting JSON
extraction; otherwise leave the buffer untouched. -/
def jsonStage (wb0 : JStr) : JStr × List JStr :=
  if 50 < wb0.length ∧ ¬ ('\n' ∈ wb0) then
    let wbD := if wb0.take 20 = (wb0.drop 20).take 20 ∧ 40 ≤ wb0.length then
        wb0.take 20
      else wb0
    match braceExtract wbD with
    | some (j, rest) =>
      let m := jsTrim j
      (rest, if m.isEmpty then [] else [m])
    | none => (wbD, [])
  else (wb0, [])

/-- One invocation of the fragment-arrival handler of `BLEContext.tsx`
lines 1103-1338: append the fragment; run the large-buffer JSON stage;
clear the buffer if it exceeds 10,000 characters (the overflow signal,
lines 1206-1214); finally run the newline / terminator extraction loop. -/
def handleFragment (buf frag : JStr) : FeedResult :=
  let a := jsonStage (buf ++ frag)
  let ovf : Bool := 10000 < a.1.length
  let wb2 := if ovf then [] else a.1
  let r := processLoopF (wb2.length + 1) wb2
  ⟨r.1, a.2 ++ r.2, ovf⟩

/-- Accumulated reassembler state across handler invocations. -/
structure ReasmState where
  buffer : JStr
  messages : List JStr
  overflowCount : Nat
  deriving DecidableEq

/-- Feed one fragment, accumulating messages and overflow signals. -/
def feedOne (st : ReasmState) (frag : JStr) : ReasmState :=
  let r := handleFragment st.buffer frag
  ⟨r.buffer, st.messages ++ r.messages,
    st.overflowCount + (if r.overflow then 1 else 0)⟩

/-- Feed a list of fragments to a fresh connection buffer. -/
def feedAll (frags : List JStr) : ReasmState :=
  frags.foldl feedOne ⟨[], [], 0⟩


/-! ## JavaScript numeric builtins -/

/-- Value of a non-empty digit run. -/
def natOfDigits (ds : JStr) : Nat := ds.foldl (fun a c => a * 10 + digitVal c) 0

/-- Model of `parseInt(s, 10)`: skip leading whitespace, optional sign,
then the maximal digit prefix; `none` (`NaN`) when no digit is found. -/
def parseIntJS (s : JStr) : Option Int :=
  let s1 := s.dropWhile isJSWhite
  let core : JStr → Option Nat := fun t =>
    let ds := t.takeWhile isDigitC
    if ds.isEmpty then none else some (natOfDigits ds)
  match s1 with
  | '-' :: r => (core r).map (fun n => -(n : Int))
  | '+' :: r => (core r).map (fun n => (n : Int))
  | t => (core t).map (fun n => (n : Int))

/-- Model of `parseFloat(s)`: skip leading whitespace, optional sign, then
the maximal prefix of the form `digits[.digits]` or `.digits`; `none`
(`NaN`) when no digit is found.  Exponent notation is outside the modelled
domain (no packet field uses it). -/
def parseFloatJS (s : JStr) : JSNum :=
  let s1 := s.dropWhile isJSWhite
  let core : JStr → JSNum := fun t =>
    let ds := t.takeWhile isDigitC
    let rest := t.drop ds.length
    match rest with
    | '.' :: r2 =>
      let fs := r2.takeWhile isDigitC
      if ds.isEmpty ∧ fs.isEmpty then none
      else some ((natOfDigits ds : ℚ) + (natOfDigits fs : ℚ) / (10 ^ fs.length : ℚ))
    | _ => if ds.isEmpty then none else some ((natOfDigits ds : ℚ))
  match s1 with
  | '-' :: r => (core r).map (fun q => -q)
  | '+' :: r => core r
  | t => core t

/-- Model of `Number(s)` for strings, as used on a present `timestamp`
field: a blank string is `0`, otherwise the whole string must be a decimal
number (hex and exponent forms are outside the modelled domain). -/
def numberJS (s : JStr) : JSNum :=
  let t := jsTrim s
  if t.isEmpty then some 0
  else
    let signed : JStr × Bool :=
      match t with
      | '-' :: r => (r, true)
      | '+' :: r => (r, false)
      | r => (r, false)
    let ds := signed.1.takeWhile isDigitC
    let rest := signed.1.drop ds.length
    let mag : JSNum :=
      match rest with
      | ['.'] => if ds.isEmpty then none else some ((natOfDigits ds : ℚ))
      | '.' :: r2 =>
        let fs := r2.takeWhile isDigitC
        if r2.drop fs.length ≠ [] ∨ (ds.isEmpty ∧ fs.isEmpty) then none
        else some ((natOfDigits ds : ℚ) + (natOfDigits fs : ℚ) / (10 ^ fs.length : ℚ))
      | [] => if ds.isEmpty then none else some ((natOfDigits ds : ℚ))
      | _ => none
    if signed.2 then mag.map (fun q => -q) else mag

/-! ## Coordinate converters (`BLEDataLogs.tsx` lines 416-471)

The latitude/longitude parsers in the source use anchored-nowhere regular
expressions of fixed shape; each is modelled as a scan for the first index
where the fixed-width pattern matches. -/

/-- Match `(\d{2})(\d{2})\.(\d{5})([NS])` at the head of the string and
return the converted value. -/
def latMatch5 : JStr → Option ℚ
  | d1 :: d2 :: m1 :: m2 :: '.' :: f1 :: f2 :: f3 :: f4 :: f5 :: dir :: _ =>
    if isDigitC d1 ∧ isDigitC d2 ∧ isDigitC m1 ∧ isDigitC m2 ∧ isDigitC f1 ∧
        isDigitC f2 ∧ isDigitC f3 ∧ isDigitC f4 ∧ isDigitC f5 ∧
        (dir = 'N' ∨ dir = 'S') then
      some ((if dir = 'N' then (1 : ℚ) else -1) *
        ((natOfDigits [d1, d2] : ℚ) +
          ((natOfDigits [m1, m2] : ℚ) + (natOfDigits [f1, f2, f3, f4, f5] : ℚ) / 100000) / 60))
    else none
  | _ => none

/-- Match `(\d{2})(\d{2})\.(\d{4})([NS])` at the head of the string. -/
def latMatch4 : JStr → Option ℚ
  | d1 :: d2 :: m1 :: m2 :: '.' :: f1 :: f2 :: f3 :: f4 :: dir :: _ =>
    if isDigitC d1 ∧ isDigitC d2 ∧ isDigitC m1 ∧ isDigitC m2 ∧ isDigitC f1 ∧
        isDigitC f2 ∧ isDigitC f3 ∧ isDigitC f4 ∧ (dir = 'N' ∨ dir = 'S') then
      some ((if dir = 'N' then (1 : ℚ) else -1) *
        ((natOfDigits [d1, d2] : ℚ) +
          ((natOfDigits [m1, m2] : ℚ) + (natOfDigits [f1, f2, f3, f4] : ℚ) / 10000) / 60))
    else none
  | _ => none

/-- Match `(\d{2})(\d{2})\.(\d{3})` (direction-less) at the head. -/
def latMatch3 : JStr → Option ℚ
  | d1 :: d2 :: m1 :: m2 :: '.' :: f1 :: f2 :: f3 :: _ =>
    if isDigitC d1 ∧ isDigitC d2 ∧ isDigitC m1 ∧ isDigitC m2 ∧ isDigitC f1 ∧
        isDigitC f2 ∧ isDigitC f3 then
      some ((natOfDigits [d1, d2] : ℚ) +
        ((natOfDigits [m1, m2] : ℚ) + (natOfDigits [f1, f2, f3] : ℚ) / 1000) / 60)
    else none
  | _ => none

/-- Match `(\d{3})(\d{2})\.(\d{3})([EW])` at the head. -/
def lonMatch3 : JStr → Option ℚ
  | d1 :: d2 :: d3 :: m1 :: m2 :: '.' :: f1 :: f2 :: f3 :: dir :: _ =>
    if isDigitC d1 ∧ isDigitC d2 ∧ isDigitC d3 ∧ isDigitC m1 ∧ isDigitC m2 ∧
        isDigitC f1 ∧ isDigitC f2 ∧ isDigitC f3 ∧ (dir = 'E' ∨ dir = 'W') then
      some ((if dir = 'E' then (1 : ℚ) else -1) *
        ((natOfDigits [d1, d2, d3] : ℚ) +
          ((natOfDigits [m1, m2] : ℚ) + (natOfDigits [f1, f2, f3] : ℚ) / 1000) / 60))
    else none
  | _ => none

/-- Match `(\d{3})(\d{2})\.(\d{4})` (direction-less) at the head. -/
def lonMatch4 : JStr → Option ℚ
  | d1 :: d2 :: d3 :: m1 :: m2 :: '.' :: f1 :: f2 :: f3 :: f4 :: _ =>
    if isDigitC d1 ∧ isDigitC d2 ∧ isDigitC d3 ∧ isDigitC m1 ∧ isDigitC m2 ∧
        isDigitC f1 ∧ isDigitC f2 ∧ isDigitC f3 ∧ isDigitC f4 then
      some ((natOfDigits [d1, d2, d3] : ℚ) +
        ((natOfDigits [m1, m2] : ℚ) + (natOfDigits [f1, f2, f3, f4] : ℚ) / 10000) / 60)
    else none
  | _ => none

/-- Unanchored regex search: try the fixed-width matcher at every start
position, leftmost match first. -/
def reSearch (f : JStr → Option ℚ) : JStr → Option ℚ
  | [] => none
  | c :: rest =>
    match f (c :: rest) with
    | some v => some v
    | none => reSearch f rest

/-- `parseLatitude` of `BLEDataLogs.tsx`: try the three formats in order,
returning `0` when none matches. -/
def parseLatitude (s : JStr) : ℚ :=
  match reSearch latMatch5 s with
  | some v => v
  | none =>
    match reSearch latMatch4 s with
    | some v => v
    | none =>
      match reSearch latMatch3 s with
      | some v => v
      | none => 0

/-- `parseLongitude` of `BLEDataLogs.tsx`: two formats, else `0`. -/
def parseLongitude (s : JStr) : ℚ :=
  match reSearch lonMatch3 s with
  | some v => v
  | none =>
    match reSearch lonMatch4 s with
    | some v => v
    | none => 0


/-! ## Packet decoders (`BLEDataLogs.tsx` lines 478-843) -/

/-- Substring `packet.substring(i, i + k)` as list take/drop. -/
def sub (p : JStr) (i k : Nat) : JStr := (p.drop i).take k

/-- Bounded forward scan for a direction letter, `BLEDataLogs.tsx` lines
499-507 and 527-535: starting at index `i`, look at up to `fuel` positions
(the source uses a window of 12) while inside the string, returning the
first index holding one of `cs`. -/
def scanDirN (p : JStr) (cs : List Char) : Nat → Nat → Option Nat
  | _, 0 => none
  | i, fuel + 1 =>
    if i < p.length then
      if (p.get? i).any (· ∈ cs) then some i else scanDirN p cs (i + 1) fuel
    else none

/-- The bounded CRC terminator scan of `parseLivePacket` (lines 571-577):
advance from `i` through at most `fuel` positions (the source uses 4) while
inside the string and not on a `'D'`. -/
def crcScanL (p : JStr) : Nat → Nat → Nat
  | i, 0 => i
  | i, fuel + 1 =>
    if i < p.length then
      if p.get? i = some 'D' then i else crcScanL p (i + 1) fuel
    else i

/-- The unbounded CRC terminator scan of `parseTotalPacket` (lines
725-728): advance from `i` while inside the string and not on a `'D'`.
`fuel` is called with the string length, which always suffices. -/
def crcScanT (p : JStr) : Nat → Nat → Nat
  | i, 0 => i
  | i, fuel + 1 =>
    if i < p.length then
      if p.get? i = some 'D' then i else crcScanT p (i + 1) fuel
    else i

/-- Decoded Live packet (`ParsedLivePacket` of `BLEDataLogs.tsx`). -/
structure LivePacketR where
  podId : JStr
  gpsTime : JStr
  gpsFix : JStr
  latitude : JStr
  prevLat1 : JStr
  prevLat2 : JStr
  longitude : JStr
  prevLon1 : JStr
  prevLon2 : JStr
  velocityKnots : JStr
  prevVel1 : JStr
  prevVel2 : JStr
  heartRate : Option Int
  metabolicPower : JSNum
  crc : JStr
  deriving DecidableEq

/-- Decoded Total packet (`ParsedTotalPacket` of `BLEDataLogs.tsx`). -/
structure TotalPacketR where
  podId : JStr
  gpsTime : JStr
  gpsFix : JStr
  playerLoad : JSNum
  totalDistance : JSNum
  hmdlDistance : JSNum
  z6Distance : JSNum
  z5Distance : JSNum
  z4Distance : JSNum
  z6Count : JSNum
  z5Count : JSNum
  z4Count : JSNum
  totalAccelerations : JSNum
  totalDecelerations : JSNum
  totalImpacts : JSNum
  stepBalanceSide : JStr
  stepBalanceValue : JSNum
  maxSpeed : JSNum
  lastMinuteMaxSpeed : JSNum
  rrAverage : JSNum
  maxHeartRate : JSNum
  crc : JStr
  deriving DecidableEq

/-- Decoded Status packet (`ParsedStatusPacket` of `BLEDataLogs.tsx`). -/
structure StatusPacketR where
  podId : JStr
  gpsDate : JStr
  gpsTime : JStr
  reserved : JStr
  crc : JStr
  deriving DecidableEq

/-- Tagged decode result (`ParsedPacket` union of `BLEDataLogs.tsx`). -/
inductive ParsedPacketR where
  | live : LivePacketR → ParsedPacketR
  | total : TotalPacketR → ParsedPacketR
  | status : StatusPacketR → ParsedPacketR
  deriving DecidableEq

/-- True when the decode result is a Live packet. -/
def ParsedPacketR.isLive : ParsedPacketR → Bool
  | .live _ => true
  | _ => false

/-- `parseLivePacket` of `BLEDataLogs.tsx` lines 478-616: fixed-width walk
with bounded direction-letter lookahead for latitude/longitude and a
bounded scan for the CRC terminator.  `none` corresponds to the JS `null`
returns (too short / no terminator found / terminator absent). -/
def parseLivePacket (p : JStr) : Option LivePacketR :=
  if p.length < 70 then none
  else
    let latR : JStr × Nat :=
      match scanDirN p ['N', 'S'] 10 12 with
      | some e => (sub p 10 (e + 1 - 10), e + 1)
      | none => (sub p 10 8, 18)
    let pos1 := latR.2
    let lonR : JStr × Nat :=
      match scanDirN p ['E', 'W'] (pos1 + 8) 12 with
      | some e => (sub p (pos1 + 8) (e + 1 - (pos1 + 8)), e + 1)
      | none => (sub p (pos1 + 8) 10, pos1 + 18)
    let pos2 := lonR.2
    let posC := pos2 + 31
    let crcEnd := crcScanL p posC 4
    if crcEnd ≥ p.length ∨ crcEnd = posC then none
    else if p.get? crcEnd = some 'D' then
      some
        { podId := sub p 1 2
          gpsTime := sub p 3 6
          gpsFix := sub p 9 1
          latitude := latR.1
          prevLat1 := sub p pos1 4
          prevLat2 := sub p (pos1 + 4) 4
          longitude := lonR.1
          prevLon1 := sub p pos2 4
          prevLon2 := sub p (pos2 + 4) 4
          velocityKnots := sub p (pos2 + 8) 5
          prevVel1 := sub p (pos2 + 13) 5
          prevVel2 := sub p (pos2 + 18) 5
          heartRate := parseIntJS (sub p (pos2 + 23) 3)
          metabolicPower := jsDivC (jsOfInt (parseIntJS (sub p (pos2 + 26) 5))) 10
          crc := sub p posC (crcEnd - posC) }
    else none

/-- Numeric Total field that may be written with a decimal point
(`playerLoad`, lines 648-649): `parseFloat` when it contains `'.'`, else
`parseInt`. -/
def dotOrInt (s : JStr) : JSNum :=
  if '.' ∈ s then parseFloatJS s else jsOfInt (parseIntJS s)

/-- Numeric Total field scaled by ten in the historic integer encoding
(`maxSpeed` / `lastMinuteMaxSpeed`, lines 692-712): `parseFloat` when it
contains `'.'` (the leading-dot case of the source is the same call), else
`parseInt` divided by 10. -/
def dotOrIntDiv10 (s : JStr) : JSNum :=
  if s.head? = some '.' then parseFloatJS s
  else if '.' ∈ s then parseFloatJS s
  else jsDivC (jsOfInt (parseIntJS s)) 10

/-- `parseTotalPacket` of `BLEDataLogs.tsx` lines 626-774: fixed-offset
walk (all field widths fixed) followed by an unbounded CRC terminator
scan.  The `isNaN` block of lines 743-745 only logs and is omitted. -/
def parseTotalPacket (p : JStr) : Option TotalPacketR :=
  if p.length < 73 then none
  else
    let crcEnd := crcScanT p 72 p.length
    if crcEnd ≥ p.length then none
    else if p.get? crcEnd = some 'D' then
      some
        { podId := sub p 1 2
          gpsTime := sub p 3 6
          gpsFix := sub p 9 1
          playerLoad := dotOrInt (sub p 10 5)
          totalDistance := jsOfInt (parseIntJS (sub p 15 5))
          hmdlDistance := jsOfInt (parseIntJS (sub p 20 5))
          z6Distance := jsOfInt (parseIntJS (sub p 25 4))
          z5Distance := jsOfInt (parseIntJS (sub p 29 4))
          z4Distance := jsOfInt (parseIntJS (sub p 33 4))
          z6Count := jsOfInt (parseIntJS (sub p 37 2))
          z5Count := jsOfInt (parseIntJS (sub p 39 3))
          z4Count := jsOfInt (parseIntJS (sub p 42 3))
          totalAccelerations := jsOfInt (parseIntJS (sub p 45 3))
          totalDecelerations := jsOfInt (parseIntJS (sub p 48 3))
          totalImpacts := jsOfInt (parseIntJS (sub p 51 2))
          stepBalanceSide := sub p 53 1
          stepBalanceValue := jsOfInt (parseIntJS (sub p 54 4))
          maxSpeed := dotOrIntDiv10 (sub p 58 4)
          lastMinuteMaxSpeed := dotOrIntDiv10 (sub p 62 4)
          rrAverage := dotOrInt (sub p 66 3)
          maxHeartRate := jsOfInt (parseIntJS (sub p 69 3))
          crc := sub p 72 (crcEnd - 72) }
    else none

/-- `parseStatusPacket` of `BLEDataLogs.tsx` lines 779-812. -/
def parseStatusPacket (p : JStr) : Option StatusPacketR :=
  if p.length < 30 then none
  else if p.get? 29 = some 'D' then
    some
      { podId := sub p 1 2
        gpsDate := sub p 3 6
        gpsTime := sub p 9 6
        reserved := sub p 15 12
        crc := sub p 27 2 }
  else none

/-- `parsePacket` of `BLEDataLogs.tsx` lines 817-843: trim, reject blank
input, dispatch on the leading character, `none` for unknown leaders.  The
JS try/catch around the dispatch corresponds to the total `Option`-valued
model. -/
def parsePacket (p : JStr) : Option ParsedPacketR :=
  let t := jsTrim p
  match t.head? with
  | none => none
  | some c =>
    if c = 'L' then (parseLivePacket t).map ParsedPacketR.live
    else if c = 'T' then (parseTotalPacket t).map ParsedPacketR.total
    else if c = 'S' then (parseStatusPacket t).map ParsedPacketR.status
    else none


/-! ## Normalized reading and converters -/

/-- GPS block of a normalized reading. -/
structure GpsData where
  lat : JSNum
  lon : JSNum
  speedKmh : JSNum
  distanceTotalM : JSNum
  deriving DecidableEq

/-- Heart block of a normalized reading. -/
structure HeartData where
  bpm : JSNum
  rrMs : JSNum
  maxBpmSession : JSNum
  deriving DecidableEq

/-- Movement block of a normalized reading. -/
structure MovementData where
  metabolicPowerWkg : JSNum
  activityZone : JStr
  stepBalanceSide : JStr
  stepBalancePercent : JSNum
  deriving DecidableEq

/-- Temperature block of a normalized reading. -/
structure TemperatureData where
  skinC : JSNum
  deriving DecidableEq

/-- One normalized per-sample reading (`SessionData['data'][0]`). -/
structure DataPoint where
  timestamp : JStr
  gps : GpsData
  heart : HeartData
  movement : MovementData
  temperature : TemperatureData
  deriving DecidableEq

/-- Template-literal rendering of a `parseInt` result
(JS <<p$\x7bparseInt(podId, 10)\x7d>>): the decimal digits of the integer,
or `"NaN"`. -/
def jsIntStr : Option Int → JStr
  | some n => (toString n).data
  | none => js "NaN"

/-- `livePacketToPatientData` of `BLEDataLogs.tsx` lines 848-918.  The
wall-clock timestamp and the `Math.random()` sample that perturbs the
synthesized skin temperature are passed in as explicit parameters `now`
and `rand`. -/
def livePacketToPatientData (pkt : LivePacketR) (now : JStr) (rand : ℚ) :
    JStr × DataPoint :=
  let speedKnots : JSNum :=
    if '.' ∈ pkt.velocityKnots then parseFloatJS pkt.velocityKnots
    else jsDivC (jsOfInt (parseIntJS pkt.velocityKnots)) 10
  let bpmN : JSNum := jsOfInt pkt.heartRate
  ('p' :: jsIntStr (parseIntJS pkt.podId),
    { timestamp := now
      gps :=
        { lat := some (parseLatitude pkt.latitude)
          lon := some (parseLongitude pkt.longitude)
          speedKmh := jsMulC speedKnots (1.852 : ℚ)
          distanceTotalM := some 0 }
      heart := { bpm := bpmN, rrMs := some 0, maxBpmSession := some 0 }
      movement :=
        { metabolicPowerWkg := pkt.metabolicPower
          activityZone := js "Z1"
          stepBalanceSide := js "left"
          stepBalancePercent := some 0 }
      temperature :=
        { skinC :=
            jsAdd
              (jsAdd (jsAdd (some 36) (jsDivC (jsSubC bpmN 60) 100))
                (jsDivC pkt.metabolicPower 20))
              (some (rand * (0.5 : ℚ))) } })

/-- `totalPacketToPatientData` of `BLEDataLogs.tsx` lines 923-986. -/
def totalPacketToPatientData (pkt : TotalPacketR) (now : JStr) :
    JStr × DataPoint :=
  let zone : JStr :=
    if jsGt0 pkt.z6Count then js "Z6"
    else if jsGt0 pkt.z5Count then js "Z5"
    else if jsGt0 pkt.z4Count then js "Z4"
    else js "Z1"
  ('p' :: jsIntStr (parseIntJS pkt.podId),
    { timestamp := now
      gps :=
        { lat := some 0
          lon := some 0
          speedKmh := pkt.maxSpeed
          distanceTotalM := pkt.totalDistance }
      heart :=
        { bpm := some 0
          rrMs := pkt.rrAverage
          maxBpmSession := pkt.maxHeartRate }
      movement :=
        { metabolicPowerWkg := some 0
          activityZone := zone
          stepBalanceSide := if pkt.stepBalanceSide = js "1" then js "left" else js "right"
          stepBalancePercent := jsDivC pkt.stepBalanceValue 100 }
      temperature := { skinC := some (36.5 : ℚ) } })

/-! ## Reading merge engine (`PatientsContext.tsx` lines 196-315) -/

/-- The numeric branch of `mergeValue` (`PatientsContext.tsx` lines
207-219): the incoming value wins unless it is (exactly) zero, in which
case the existing value wins unless it is also zero.  `NaN` (`none`) is
distinct from zero, exactly as the JS `!==` comparison treats it. -/
def mergeValue (existing incoming : JSNum) : JSNum :=
  if incoming ≠ some 0 then incoming
  else if existing ≠ some 0 then existing
  else incoming

/-- JS string disjunction `a || b` (empty string is falsy). -/
def jsOrStr (a b : JStr) : JStr := if a.isEmpty then b else a

/-- The field-by-field merge of an incoming partial into the latest
existing reading (`mergedData`, `PatientsContext.tsx` lines 221-243). -/
def mergeData (latest incoming : DataPoint) : DataPoint :=
  { timestamp := jsOrStr incoming.timestamp latest.timestamp
    gps :=
      { lat := mergeValue latest.gps.lat incoming.gps.lat
        lon := mergeValue latest.gps.lon incoming.gps.lon
        speedKmh := mergeValue latest.gps.speedKmh incoming.gps.speedKmh
        distanceTotalM := mergeValue latest.gps.distanceTotalM incoming.gps.distanceTotalM }
    heart :=
      { bpm := mergeValue latest.heart.bpm incoming.heart.bpm
        rrMs := mergeValue latest.heart.rrMs incoming.heart.rrMs
        maxBpmSession := mergeValue latest.heart.maxBpmSession incoming.heart.maxBpmSession }
    movement :=
      { metabolicPowerWkg :=
          mergeValue latest.movement.metabolicPowerWkg incoming.movement.metabolicPowerWkg
        activityZone :=
          jsOrStr incoming.movement.activityZone
            (jsOrStr latest.movement.activityZone (js "Z1"))
        stepBalanceSide :=
          jsOrStr incoming.movement.stepBalanceSide
            (jsOrStr latest.movement.stepBalanceSide (js "left"))
        stepBalancePercent :=
          mergeValue latest.movement.stepBalancePercent incoming.movement.stepBalancePercent }
    temperature :=
      { skinC := mergeValue latest.temperature.skinC incoming.temperature.skinC } }

/-- JS `array.slice(-6)`: the last six elements. -/
def slice6 {α : Type} (l : List α) : List α := l.drop (l.length - 6)

/-- The reading-history update of `PatientsContext.tsx` lines 196-293 at
the level of the data array: with an existing non-empty history, a partial
with non-zero latitude and longitude (`isNewLivePacket`, line 246) is
appended, anything else is merged into the last entry; in both cases the
history is truncated to the last six entries.  A missing or empty history
is replaced by the single new reading. -/
def applyReading (existing : Option (List DataPoint)) (parsed : DataPoint) :
    List DataPoint :=
  match existing with
  | some (d :: ds) =>
    let arr := d :: ds
    let latest := arr.getLast (List.cons_ne_nil d ds)
    if parsed.gps.lat ≠ some 0 ∧ parsed.gps.lon ≠ some 0 then
      slice6 (arr ++ [parsed])
    else
      slice6 (arr.dropLast ++ [mergeData latest parsed])
  | some [] => [parsed]
  | none => [parsed]

/-- Registry key of `PatientsContext.tsx` lines 183-184: prefix the id
with `'p'` unless it already starts with one, then prefix `"ble-"`. -/
def patientKeyOf (pid : JStr) : JStr :=
  js "ble-" ++ (if pid.head? = some 'p' then pid else 'p' :: pid)


/-! ## JSON messages (`PatientsContext.tsx` lines 36-127)

`JSON.parse` is modelled by a small recursive-descent parser over the
grammar the application actually receives: objects, arrays, double-quoted
strings without escape sequences, decimal numbers without exponent
notation, `true`, `false`, `null`.  Inputs outside this grammar are
rejected (`none`), corresponding to the `catch` branch of the source. -/

/-- JSON value tree. -/
inductive Json where
  | null : Json
  | bool : Bool → Json
  | num : ℚ → Json
  | str : JStr → Json
  | arr : List Json → Json
  | obj : List (JStr × Json) → Json

/-- Skip JSON whitespace. -/
def skipWs (s : JStr) : JStr :=
  s.dropWhile (fun c => c = ' ' ∨ c = '\t' ∨ c = '\n' ∨ c = '\r')

/-- Parse a double-quoted string body (no escapes; opening quote already
consumed), returning the contents and the remainder. -/
def pStrAux : JStr → JStr → Option (JStr × JStr)
  | [], _ => none
  | '"' :: r, acc => some (acc.reverse, r)
  | '\\' :: _, _ => none
  | c :: r, acc => pStrAux r (c :: acc)

/-- Parse a JSON number at the head of the input. -/
def pNum (s : JStr) : Option (ℚ × JStr) :=
  let core : JStr → Option (ℚ × JStr) := fun t =>
    let ds := t.takeWhile isDigitC
    if ds.isEmpty then none
    else
      let rest := t.drop ds.length
      match rest with
      | '.' :: r2 =>
        let fs := r2.takeWhile isDigitC
        if fs.isEmpty then none
        else
          some ((natOfDigits ds : ℚ) + (natOfDigits fs : ℚ) / (10 ^ fs.length : ℚ),
            r2.drop fs.length)
      | _ => some ((natOfDigits ds : ℚ), rest)
  match s with
  | '-' :: r => (core r).map (fun x => (-x.1, x.2))
  | t => core t

mutual

/-- Parse one JSON value. -/
def pVal : Nat → JStr → Option (Json × JStr)
  | 0, _ => none
  | fuel + 1, s =>
    match skipWs s with
    | '{' :: r =>
      match skipWs r with
      | '}' :: r2 => some (Json.obj [], r2)
      | _ => pMembers fuel r []
    | '[' :: r =>
      match skipWs r with
      | ']' :: r2 => some (Json.arr [], r2)
      | _ => pElems fuel r []
    | '"' :: r => (pStrAux r []).map (fun x => (Json.str x.1, x.2))
    | 'n' :: 'u' :: 'l' :: 'l' :: r => some (Json.null, r)
    | 't' :: 'r' :: 'u' :: 'e' :: r => some (Json.bool true, r)
    | 'f' :: 'a' :: 'l' :: 's' :: 'e' :: r => some (Json.bool false, r)
    | t => (pNum t).map (fun x => (Json.num x.1, x.2))

/-- Parse the members of a JSON object (after `{`, at least one member). -/
def pMembers : Nat → JStr → List (JStr × Json) → Option (Json × JStr)
  | 0, _, _ => none
  | fuel + 1, s, acc =>
    match skipWs s with
    | '"' :: r =>
      match pStrAux r [] with
      | some (k, r2) =>
        match skipWs r2 with
        | ':' :: r3 =>
          match pVal fuel r3 with
          | some (v, r4) =>
            match skipWs r4 with
            | ',' :: r5 => pMembers fuel r5 (acc ++ [(k, v)])
            | '}' :: r5 => some (Json.obj (acc ++ [(k, v)]), r5)
            | _ => none
          | none => none
        | _ => none
      | none => none
    | _ => none

/-- Parse the elements of a JSON array (after `[`, at least one element). -/
def pElems : Nat → JStr → List Json → Option (Json × JStr)
  | 0, _, _ => none
  | fuel + 1, s, acc =>
    match pVal fuel s with
    | some (v, r) =>
      match skipWs r with
      | ',' :: r2 => pElems fuel r2 (acc ++ [v])
      | ']' :: r2 => some (Json.arr (acc ++ [v]), r2)
      | _ => none
    | none => none

end

/-- Model of `JSON.parse`: the whole input must be consumed. -/
def jsonParse (s : JStr) : Option Json :=
  match pVal (2 * s.length + 4) s with
  | some (v, rest) => if (skipWs rest).isEmpty then some v else none
  | none => none

/-- Property access on a parsed object (last duplicate key wins, as in
`JSON.parse`); `none` is JS `undefined`. -/
def getO (o : List (JStr × Json)) (k : JStr) : Option Json :=
  o.foldl (fun acc kv => if kv.1 = k then some kv.2 else acc) none

/-- JS truthiness of a possibly-absent JSON value. -/
def jsTruthy : Option Json → Bool
  | none => false
  | some Json.null => false
  | some (Json.bool b) => b
  | some (Json.num q) => q ≠ 0
  | some (Json.str s) => ¬ s.isEmpty
  | some (Json.arr _) => true
  | some (Json.obj _) => true

/-- Nested numeric field access `data.k1?.k2 ?? d` (lines 96-116 of
`PatientsContext.tsx`).  A present non-numeric value is outside the
modelled domain and is mapped to the default. -/
def numF (o : List (JStr × Json)) (k1 k2 : JStr) (d : ℚ) : ℚ :=
  match getO o k1 with
  | some (Json.obj o2) =>
    match getO o2 k2 with
    | some (Json.num q) => q
    | _ => d
  | _ => d

/-- Nested string field access `data.k1?.k2 ?? d`. -/
def strF (o : List (JStr × Json)) (k1 k2 : JStr) (d : JStr) : JStr :=
  match getO o k1 with
  | some (Json.obj o2) =>
    match getO o2 k2 with
    | some (Json.str s) => s
    | _ => d
  | _ => d

/-- Stand-in for `new Date(t * 1000).toISOString()`: an injective rendering
of the epoch value (the exact ISO text is a platform concern carried by no
claim). -/
def isoOfEpoch (t : ℚ) : JStr := js "epoch:" ++ (toString t).data

/-- The timestamp expression of line 96:
`data.timestamp ? new Date(Number(data.timestamp) * 1000).toISOString() :
new Date().toISOString()`.  `none` models the `RangeError` thrown by
`toISOString` on an unparsable timestamp (caught at line 119, failing the
whole message). -/
def tsField (o : List (JStr × Json)) (now : JStr) : Option JStr :=
  match getO o (js "timestamp") with
  | some (Json.num q) => if q = 0 then some now else some (isoOfEpoch q)
  | some (Json.str cs) =>
    if cs.isEmpty then some now
    else
      match numberJS cs with
      | some q => some (isoOfEpoch q)
      | none => none
  | some (Json.bool true) => some (isoOfEpoch 1)
  | some (Json.bool false) => some now
  | some Json.null => some now
  | some (Json.obj _) => none
  | some (Json.arr _) => none
  | none => some now

/-- The JSON branch of `parseBLEData` (`PatientsContext.tsx` lines
78-123): parse, require an object with a truthy string patient id
(`patientId` falling back to `patient_id`), then read every nested field
with its documented default. -/
def jsonReadBranch (s now : JStr) : Option (JStr × DataPoint) :=
  match jsonParse s with
  | some (Json.obj o) =>
    let pidJ : Option Json :=
      if jsTruthy (getO o (js "patientId")) then getO o (js "patientId")
      else if jsTruthy (getO o (js "patient_id")) then getO o (js "patient_id")
      else none
    match pidJ with
    | some (Json.str pid) =>
      match tsField o now with
      | none => none
      | some ts =>
        some (pid,
          { timestamp := ts
            gps :=
              { lat := some (numF o (js "gps") (js "lat") 0)
                lon := some (numF o (js "gps") (js "lon") 0)
                speedKmh := some (numF o (js "gps") (js "speedKmh") 0)
                distanceTotalM := some (numF o (js "gps") (js "distanceTotalM") 0) }
            heart :=
              { bpm := some (numF o (js "heart") (js "bpm") 0)
                rrMs := some (numF o (js "heart") (js "rrMs") 0)
                maxBpmSession := some (numF o (js "heart") (js "maxBpmSession") 0) }
            movement :=
              { metabolicPowerWkg := some (numF o (js "movement") (js "metabolicPowerWkg") 0)
                activityZone := strF o (js "movement") (js "activityZone") (js "Z1")
                stepBalanceSide := strF o (js "movement") (js "stepBalanceSide") (js "left")
                stepBalancePercent := some (numF o (js "movement") (js "stepBalancePercent") 0) }
            temperature :=
              { skinC := some (numF o (js "temperature") (js "skinC") (36.5 : ℚ)) } })
    | _ => none
  | _ => none

/-- `parseBLEData` of `PatientsContext.tsx` lines 37-127: reject blank
input; dispatch `L`/`T`/`S`-leading input to the packet decoders (Status
packets yield nothing); dispatch brace-delimited input to the JSON branch;
reject everything else. -/
def parseBLEData (s now : JStr) (rand : ℚ) : Option (JStr × DataPoint) :=
  let t := jsTrim s
  if t.isEmpty then none
  else if t.head? = some 'L' ∨ t.head? = some 'T' ∨ t.head? = some 'S' then
    match parsePacket t with
    | some (ParsedPacketR.live pkt) => some (livePacketToPatientData pkt now rand)
    | some (ParsedPacketR.total pkt) => some (totalPacketToPatientData pkt now)
    | some (ParsedPacketR.status _) => none
    | none => none
  else if t.head? = some '{' ∧ t.getLast? = some '}' then
    jsonReadBranch s now
  else none


/-! ## CRC-8 generator (`esp32_ble_server.ino` lines 41-55) -/

/-- One shift step of the CRC-8 inner loop: shift left, reduce by the
polynomial `0x07` when the top bit was set, all on one byte. -/
def crc8Shift (c : Nat) : Nat :=
  if 128 ≤ c % 256 then ((c % 256) * 2) % 256 ^^^ 7 else ((c % 256) * 2) % 256

/-- Eight applications of the shift step (the inner `for` loop). -/
def crc8Byte (c : Nat) : Nat :=
  crc8Shift (crc8Shift (crc8Shift (crc8Shift
    (crc8Shift (crc8Shift (crc8Shift (crc8Shift c)))))))

/-- The byte loop of `calculateCRC8`: xor in the next character code and
run the eight shift steps.  The match on the new accumulator is the
identity; it only keeps kernel evaluation of long packets shallow. -/
def crc8Fold : JStr → Nat → Nat
  | [], crc => crc
  | c :: r, crc =>
    match crc8Byte ((crc ^^^ c.toNat) % 256) with
    | 0 => crc8Fold r 0
    | m + 1 => crc8Fold r (m + 1)

/-- `calculateCRC8` of `esp32_ble_server.ino`: polynomial `0x07`, initial
value `0`, MSB-first, over the character codes of the packet prefix. -/
def calculateCRC8 (data : JStr) : Nat := crc8Fold data 0

/-- Uppercase hex digit. -/
def hexDigit (n : Nat) : Char :=
  if n < 10 then Char.ofNat (48 + n) else Char.ofNat (55 + n)

/-- The generator's `sprintf(crcHex, "%02X", crc)`: two uppercase hex
characters. -/
def hex2 (n : Nat) : JStr := [hexDigit (n % 256 / 16), hexDigit (n % 16)]


/-! ## Concrete packets used by the claims -/

/-- A generator-shaped Live packet body (everything before the checksum):
pod `01`, time `120000`, fix `1`, zero coordinates and velocities, heart
rate `085`, metabolic power `00000`. -/
def liveBodyA : JStr :=
  js "L011200001000000000000000000000000000000000000000000000000008500000"

/-- `liveBodyA` with its own CRC-8 (`C9`) and the generator's terminator. -/
def livePacketA : JStr := liveBodyA ++ js "C9D"

/-- A generator-shaped Live packet body whose CRC-8 is `0xED` — its hex
rendering contains the terminator character `'D'`. -/
def liveBodyC : JStr :=
  js "L011200001000000000000000000000000000000000000000000000000008500022"

/-- `liveBodyC` with its own CRC-8 (`ED`) and the generator's terminator. -/
def livePacketC : JStr := liveBodyC ++ js "EDD"

/-- A well-formed Total packet whose CRC-8 field begins with `'D'`
(hex `D3`): 72 characters of header and numeric fields, then `D3` and the
`'D'` terminator. -/
def totalPacketX : JStr := js "T011200001" ++ List.replicate 62 '0' ++ js "D3D"


/-! ## Concrete data used to settle the claims -/

/-- Concatenation of a fragment list. -/
def concatL (fs : List JStr) : JStr := fs.foldr (fun a b => a ++ b) []

/-- The fragment partition of the end-to-end example of the spec. -/
def c8frags : List JStr :=
  [js "L01120000", js "1050.0000", js "0000", js "0000", js "01250.000",
   js "0000", js "0000", js "00500", js "00000", js "00000", js "085",
   js "00450", js "A3D"]

/-- The concatenation of the example fragments (69 characters). -/
def c8concat : JStr := concatL c8frags

/-- A sample existing reading with every field populated
(`heart.bpm = 82`). -/
def dp0 : DataPoint :=
  { timestamp := js "t0"
    gps := { lat := some 1, lon := some 2, speedKmh := some 3, distanceTotalM := some 4 }
    heart := { bpm := some 82, rrMs := some 700, maxBpmSession := some 95 }
    movement := { metabolicPowerWkg := some 5, activityZone := js "Z2",
                  stepBalanceSide := js "right", stepBalancePercent := some 6 }
    temperature := { skinC := some 36 } }

/-- A sample incoming reading with non-zero coordinates. -/
def dpLive1 : DataPoint :=
  { dp0 with gps := { lat := some 1, lon := some 1, speedKmh := some 0, distanceTotalM := some 0 } }

/-- Fallback reading used only to strip the `Option` from a decode that is
separately proved to succeed. -/
def dpDefault : DataPoint :=
  { timestamp := []
    gps := { lat := some 0, lon := some 0, speedKmh := some 0, distanceTotalM := some 0 }
    heart := { bpm := some 0, rrMs := some 0, maxBpmSession := some 0 }
    movement := { metabolicPowerWkg := some 0, activityZone := [],
                  stepBalanceSide := [], stepBalancePercent := some 0 }
    temperature := { skinC := some 0 } }

/-- The partial reading decoded from the Total packet `totalPacketX`
(its `heart.bpm` is zero: Total packets carry no heart rate). -/
def incT : DataPoint :=
  ((parseBLEData totalPacketX (js "now") 0).getD (js "", dpDefault)).2

/-- A buffer of 41,000 characters of non-terminating garbage: no newline,
no brace, no terminator, and the first 20 characters are not repeated at
offset 20. -/
def garbage41k : JStr := 'a' :: List.replicate 40999 'b'

/-- Declarative description of a lone terminator: position `i` holds `'D'`
and is not immediately preceded by another `'D'`.  (The first conjunct
forces `i` to be inside the string.) -/
def isLoneD (wb : JStr) (i : Nat) : Prop :=
  wb.get? i = some 'D' ∧ (i = 0 ∨ wb.get? (i - 1) ≠ some 'D')

instance (wb : JStr) (i : Nat) : Decidable (isLoneD wb i) :=
  inferInstanceAs (Decidable (_ ∧ _))

/-! ## Helper lemmas about the reassembler -/

theorem idxOfChar_eq_none {c : Char} : ∀ {l : JStr}, c ∉ l → idxOfChar c l = none := by
  intro l
  induction l with
  | nil => intro _; rfl
  | cons a r ih =>
    intro h
    have ha : ¬ a = c := by
      intro hac
      exact h (hac ▸ List.mem_cons_self a r)
    have hr : c ∉ r := fun hm => h (List.mem_cons_of_mem a hm)
    simp [idxOfChar, ha, ih hr]

theorem idxOfChar_append_sentinel {c : Char} :
    ∀ {l : JStr}, c ∉ l → idxOfChar c (l ++ [c]) = some l.length := by
  intro l
  induction l with
  | nil => intro _; simp [idxOfChar]
  | cons a r ih =>
    intro h
    have ha : ¬ a = c := by
      intro hac
      exact h (hac ▸ List.mem_cons_self a r)
    have hr : c ∉ r := fun hm => h (List.mem_cons_of_mem a hm)
    simp [idxOfChar, ha, ih hr]

theorem braceScan_eq_none :
    ∀ (s : JStr) (bc : Int) (jstart : Option Nat) (i : Nat),
      (∀ ch ∈ s, ch ≠ '{' ∧ ch ≠ '}') → braceScan s bc jstart i = none := by
  intro s
  induction s with
  | nil => intro bc jstart i _; rfl
  | cons a r ih =>
    intro bc jstart i h
    have ha := h a (List.mem_cons_self a r)
    have hr : ∀ ch ∈ r, ch ≠ '{' ∧ ch ≠ '}' :=
      fun ch hm => h ch (List.mem_cons_of_mem a hm)
    simp [braceScan, ha.1, ha.2, ih _ _ _ hr]

theorem braceExtract_eq_none {wb : JStr}
    (h : ∀ ch ∈ wb, ch ≠ '{' ∧ ch ≠ '}') : braceExtract wb = none := by
  simp [braceExtract, braceScan_eq_none wb 0 none 0 h]

theorem jsonStage_small {wb : JStr} (h : wb.length ≤ 50) : jsonStage wb = (wb, []) := by
  have : ¬ (50 < wb.length ∧ ¬ ('\n' ∈ wb)) := by
    intro hc
    exact absurd hc.1 (not_lt.mpr h)
  simp [jsonStage, this]

theorem jsonStage_newline {wb : JStr} (h : '\n' ∈ wb) : jsonStage wb = (wb, []) := by
  have : ¬ (50 < wb.length ∧ ¬ ('\n' ∈ wb)) := by
    intro hc
    exact hc.2 h
  simp [jsonStage, this]

theorem jsonStage_inert {wb : JStr}
    (hdup : ¬ wb.take 20 = (wb.drop 20).take 20)
    (hbr : ∀ ch ∈ wb, ch ≠ '{' ∧ ch ≠ '}') : jsonStage wb = (wb, []) := by
  by_cases hcond : 50 < wb.length ∧ ¬ ('\n' ∈ wb)
  · have hguard : ¬ (wb.take 20 = (wb.drop 20).take 20 ∧ 40 ≤ wb.length) := by
      intro hc
      exact hdup hc.1
    simp [jsonStage, hcond, hguard, braceExtract_eq_none hbr]
  · simp [jsonStage, hcond]

theorem extractPacket_eq_none {wb : JStr}
    (h : ∀ c, wb.head? = some c → c ≠ 'L' ∧ c ≠ 'T' ∧ c ≠ 'S') :
    extractPacket wb = none := by
  cases hw : wb.head? with
  | none =>
    simp [extractPacket, hw]
  | some c =>
    have hc := h c hw
    simp [extractPacket, hw, hc.1, hc.2.1, hc.2.2]

theorem processLoopF_stuck {wb : JStr} (fz : Nat)
    (hnl : '\n' ∉ wb) (he : extractPacket wb = none) :
    processLoopF fz wb = (wb, []) := by
  cases fz with
  | zero => rfl
  | succ f => simp [processLoopF, idxOfChar_eq_none hnl, he]

theorem processLoopF_buffer_le :
    ∀ (f : Nat) (wb : JStr), (processLoopF f wb).1.length ≤ wb.length := by
  intro f
  induction f with
  | zero => intro wb; exact le_rfl
  | succ f ih =>
    intro wb
    unfold processLoopF
    cases hidx : idxOfChar '\n' wb with
    | none =>
      cases he : extractPacket wb with
      | none => exact le_rfl
      | some p =>
        simp only []
        calc (processLoopF f (wb.drop p.length)).1.length
            ≤ (wb.drop p.length).length := ih _
          _ ≤ wb.length := by
              rw [List.length_drop]
              omega
    | some n =>
      by_cases hm : (jsTrim (wb.take n)).isEmpty
      · cases he : extractPacket (wb.drop (n + 1)) with
        | none =>
          simp only [hm, he]
          simp [List.length_drop]
        | some p =>
          simp only [hm, he]
          calc (processLoopF f ((wb.drop (n + 1)).drop p.length)).1.length
              ≤ ((wb.drop (n + 1)).drop p.length).length := ih _
            _ ≤ wb.length := by
                simp [List.length_drop]
      · simp only [hm]
        calc (processLoopF f (wb.drop (n + 1))).1.length
            ≤ (wb.drop (n + 1)).length := ih _
          _ ≤ wb.length := by
              rw [List.length_drop]
              omega

theorem take_append_self {α : Type} (l r : List α) : (l ++ r).take l.length = l := by
  simp

theorem drop_append_succ {α : Type} (l : List α) (c : α) :
    (l ++ [c]).drop (l.length + 1) = [] := by
  induction l with
  | nil => rfl
  | cons a r ih => simp [ih]

theorem isEmpty_false_of_ne {α : Type} {l : List α} (h : l ≠ []) : l.isEmpty = false := by
  cases l with
  | nil => exact absurd rfl h
  | cons a r => rfl

theorem head?_take {α : Type} {l : List α} {n : Nat} {c : α}
    (h : (l.take n).head? = some c) : l.head? = some c := by
  cases l with
  | nil => simp at h
  | cons a r =>
    cases n with
    | zero => simp at h
    | succ m => simpa using h

theorem extractPacket_nil : extractPacket [] = none := rfl
theorem feedOne_inert (pre f : JStr) (msgs : List JStr) (k : Nat)
    (hlen' : (pre ++ f).length ≤ 50)
    (hnl' : '\n' ∉ pre ++ f)
    (hhead' : ∀ c, (pre ++ f).head? = some c → c ≠ 'L' ∧ c ≠ 'T' ∧ c ≠ 'S') :
    feedOne ⟨pre, msgs, k⟩ f = ⟨pre ++ f, msgs, k⟩ := by
  have hov2 : ¬ (10000 < pre.length + f.length) := by
    have := hlen'
    simp only [List.length_append] at this
    omega
  have hst := processLoopF_stuck ((pre ++ f).length + 1) hnl' (extractPacket_eq_none hhead')
  simp only [List.length_append] at hst
  simp [feedOne, handleFragment, jsonStage_small hlen', hov2, hst]

theorem feedOne_final (body pre f : JStr) (msgs : List JStr) (k : Nat)
    (hlen : body.length ≤ 50) (hnl : '\n' ∉ body) (hne : jsTrim body ≠ [])
    (hpf : pre ++ f = body ++ ['\n']) :
    feedOne ⟨pre, msgs, k⟩ f = ⟨[], msgs ++ [jsTrim body], k⟩ := by
  have hmem : '\n' ∈ body ++ ['\n'] := by simp
  have hjs : jsonStage (pre ++ f) = (pre ++ f, []) := by
    rw [hpf]
    exact jsonStage_newline hmem
  have hlenM : (pre ++ f).length = body.length + 1 := by
    rw [hpf]
    simp
  have hov : decide (10000 < (pre ++ f).length) = false := by
    apply decide_eq_false
    omega
  have hidx : idxOfChar '\n' (pre ++ f) = some body.length := by
    rw [hpf]
    exact idxOfChar_append_sentinel hnl
  have htake : (pre ++ f).take body.length = body := by
    rw [hpf]
    exact take_append_self body ['\n']
  have hdrop : (pre ++ f).drop (body.length + 1) = [] := by
    rw [hpf]
    exact drop_append_succ body '\n'
  have hstuck : processLoopF (body.length + 1) ([] : JStr) = ([], []) := by
    apply processLoopF_stuck
    · simp
    · exact extractPacket_nil
  have hloop : processLoopF ((pre ++ f).length + 1) (pre ++ f) = ([], [jsTrim body]) := by
    rw [hlenM]
    show processLoopF (body.length + 1 + 1) (pre ++ f) = ([], [jsTrim body])
    rw [show body.length + 1 + 1 = (body.length + 1) + 1 from rfl]
    unfold processLoopF
    rw [hidx]
    simp only [htake, hdrop, isEmpty_false_of_ne hne, Bool.false_eq_true, if_false, hstuck]
  have hov2 : ¬ (10000 < pre.length + f.length) := by
    have := hlenM
    simp only [List.length_append] at this
    omega
  simp only [List.length_append] at hloop
  simp [feedOne, handleFragment, hjs, hov2, hloop]

theorem feed_empties :
    ∀ (rest : List JStr) (msgs : List JStr) (k : Nat), concatL rest = [] →
      List.foldl feedOne ⟨[], msgs, k⟩ rest = ⟨[], msgs, k⟩ := by
  intro rest
  induction rest with
  | nil => intro msgs k _; rfl
  | cons f r ih =>
    intro msgs k h
    have h2 : f = [] ∧ concatL r = [] := by
      simpa [concatL] using List.append_eq_nil.mp (by simpa [concatL] using h)
    have hstep : feedOne ⟨[], msgs, k⟩ ([] : JStr) = ⟨[], msgs, k⟩ := by
      have : handleFragment [] [] = ⟨[], [], false⟩ := by decide
      simp [feedOne, this]
    rw [List.foldl_cons, h2.1, hstep, ih msgs k h2.2]

theorem feedChain (body : JStr) (hlen : body.length ≤ 50) (hnl : '\n' ∉ body)
    (hne : jsTrim body ≠ [])
    (hhead : ∀ c, body.head? = some c → c ≠ 'L' ∧ c ≠ 'T' ∧ c ≠ 'S') :
    ∀ (frags : List JStr) (pre : JStr) (msgs : List JStr) (k : Nat),
      pre ++ concatL frags = body ++ ['\n'] → pre.length ≤ body.length →
      List.foldl feedOne ⟨pre, msgs, k⟩ frags = ⟨[], msgs ++ [jsTrim body], k⟩ := by
  intro frags
  induction frags with
  | nil =>
    intro pre msgs k hcat hp
    exfalso
    have hcat' : pre = body ++ ['\n'] := by simpa [concatL] using hcat
    have : pre.length = body.length + 1 := by simp [hcat']
    omega
  | cons f rest ih =>
    intro pre msgs k hcat hp
    have hcat' : (pre ++ f) ++ concatL rest = body ++ ['\n'] := by
      simpa [concatL, List.append_assoc] using hcat
    rw [List.foldl_cons]
    by_cases hp' : (pre ++ f).length ≤ body.length
    · -- the buffer is still a prefix of the body: the handler is inert
      have hpre : pre ++ f = body.take (pre ++ f).length := by
        have h1 : ((pre ++ f) ++ concatL rest).take (pre ++ f).length = pre ++ f :=
          take_append_self _ _
        rw [hcat', List.take_append_of_le_length hp'] at h1
        exact h1.symm
      have hnl' : '\n' ∉ pre ++ f := by
        intro hm
        exact hnl (List.take_subset _ _ (hpre ▸ hm))
      have hlen' : (pre ++ f).length ≤ 50 := le_trans hp' hlen
      have hhead' : ∀ c, (pre ++ f).head? = some c → c ≠ 'L' ∧ c ≠ 'T' ∧ c ≠ 'S' := by
        intro c hc
        exact hhead c (head?_take (hpre ▸ hc))
      rw [feedOne_inert pre f msgs k hlen' hnl' hhead']
      exact ih (pre ++ f) msgs k hcat' hp'
    · -- the newline has arrived: the handler emits the message
      have hlensum : pre.length + (f.length + (concatL rest).length) = body.length + 1 := by
        have := congrArg List.length hcat'
        simpa using this
      have hp'' : ¬ (pre.length + f.length ≤ body.length) := by
        simpa using hp'
      have hrest : concatL rest = [] := by
        have : (concatL rest).length = 0 := by omega
        exact List.length_eq_zero.mp this
      have hpf : pre ++ f = body ++ ['\n'] := by
        have := hcat'
        rw [hrest, List.append_nil] at this
        exact this
      rw [feedOne_final body pre f msgs k hlen hnl hne hpf]
      exact feed_empties rest (msgs ++ [jsTrim body]) k hrest

theorem lastLoneDAux_eq_some (wb : JStr) (i : Nat) :
    ∀ n, i < n → isLoneD wb i →
      (∀ j, i < j → j < n → ¬ isLoneD wb j) →
      lastLoneDAux wb n = some i := by
  intro n
  induction n with
  | zero => intro h; omega
  | succ m ihm =>
    intro hin hi hmax
    unfold lastLoneDAux
    by_cases hm : wb.get? m = some 'D' ∧ (m = 0 ∨ wb.get? (m - 1) ≠ some 'D')
    · rw [if_pos hm]
      rcases Nat.lt_succ_iff_lt_or_eq.mp hin with h | h
      · exact absurd hm (hmax m h (Nat.lt_succ_self m))
      · rw [h]
    · rw [if_neg hm]
      have hin' : i < m := by
        rcases Nat.lt_succ_iff_lt_or_eq.mp hin with h | h
        · exact h
        · exact absurd (h ▸ hi) hm
      exact ihm hin' hi (fun j h1 h2 => hmax j h1 (Nat.lt_succ_of_lt h2))

theorem head?_eq_get?_zero {α : Type} (l : List α) : l.head? = l.get? 0 := by
  cases l <;> rfl

/-! ## The claims -/

/-- C1 counterexample: the Total packet `totalPacketX` is a complete,
well-formed message — feeding it whole to a fresh reassembler yields
exactly one extracted message identical to it, and it decodes successfully
as a Total packet — yet splitting it after its 73rd character makes the
reassembler emit a different single message (a proper prefix, cut at the
`'D'` inside the packet's own CRC-8 hex field), so the partition property
of the claim fails. -/
theorem claim_C1_counterexample :
    (feedAll [totalPacketX]).messages = [totalPacketX] ∧
    (parsePacket totalPacketX).isSome = true ∧
    (feedAll [totalPacketX.take 73, totalPacketX.drop 73]).messages
      = [totalPacketX.take 73] ∧
    [totalPacketX.take 73] ≠ [totalPacketX] :=
  ⟨by decide, by decide, by decide, by decide⟩

/-- C1 (amended): the partition property holds for newline-framed messages
outside the terminator sub-grammars: for every message consisting of a
body of at most 50 characters that contains no newline, does not begin
with `'L'`, `'T'` or `'S'`, and is non-blank after trimming, followed by a
newline, feeding any fragment partition of it to a fresh reassembler
yields exactly one extracted message, the trimmed body — in particular the
same result as feeding the message whole (the one-fragment partition).
For `T`/`S`-framed messages the property fails (see the counterexample):
a fragment boundary before an interior lone `'D'` makes the reassembler
emit a proper prefix. -/
theorem claim_C1_amended (body : JStr) (frags : List JStr)
    (hlen : body.length ≤ 50) (hnl : '\n' ∉ body) (hne : jsTrim body ≠ [])
    (hhead : ∀ c, body.head? = some c → c ≠ 'L' ∧ c ≠ 'T' ∧ c ≠ 'S')
    (hcat : concatL frags = body ++ ['\n']) :
    feedAll frags = ⟨[], [jsTrim body], 0⟩ := by
  have h := feedChain body hlen hnl hne hhead frags [] [] 0 (by simpa using hcat)
    (by simp)
  simpa [feedAll] using h

/-- Witness for the amended C1 at a concrete JSON message split in two. -/
theorem claim_C1_amended_witness :
    feedAll [js "\x7b\"a\"", js ":1\x7d\n"] =
      ⟨[], [jsTrim (js "\x7b\"a\":1\x7d")], 0⟩ :=
  claim_C1_amended (js "\x7b\"a\":1\x7d") [js "\x7b\"a\"", js ":1\x7d\n"]
    (by decide) (by decide) (by decide)
    (by
      intro c hc
      rw [show (js "\x7b\"a\":1\x7d").head? = some '\x7b' from rfl] at hc
      cases hc
      exact ⟨by decide, by decide, by decide⟩)
    (by decide)

/-- C2: in the merge engine, each numeric field keeps the existing value
exactly when the incoming value is zero and takes the incoming value when
it is non-zero; `mergedData` routes every numeric reading field through
`mergeValue`, so in particular an incoming Total partial with zero
`heart.bpm` leaves the existing bpm in place. -/
theorem claim_C2 :
    (∀ e i : JSNum,
      (i = some 0 → mergeValue e i = e) ∧ (i ≠ some 0 → mergeValue e i = i)) ∧
    (∀ latest incoming : DataPoint,
      (mergeData latest incoming).gps.lat
          = mergeValue latest.gps.lat incoming.gps.lat ∧
      (mergeData latest incoming).gps.lon
          = mergeValue latest.gps.lon incoming.gps.lon ∧
      (mergeData latest incoming).gps.speedKmh
          = mergeValue latest.gps.speedKmh incoming.gps.speedKmh ∧
      (mergeData latest incoming).gps.distanceTotalM
          = mergeValue latest.gps.distanceTotalM incoming.gps.distanceTotalM ∧
      (mergeData latest incoming).heart.bpm
          = mergeValue latest.heart.bpm incoming.heart.bpm ∧
      (mergeData latest incoming).heart.rrMs
          = mergeValue latest.heart.rrMs incoming.heart.rrMs ∧
      (mergeData latest incoming).heart.maxBpmSession
          = mergeValue latest.heart.maxBpmSession incoming.heart.maxBpmSession ∧
      (mergeData latest incoming).movement.metabolicPowerWkg
          = mergeValue latest.movement.metabolicPowerWkg
              incoming.movement.metabolicPowerWkg ∧
      (mergeData latest incoming).movement.stepBalancePercent
          = mergeValue latest.movement.stepBalancePercent
              incoming.movement.stepBalancePercent ∧
      (mergeData latest incoming).temperature.skinC
          = mergeValue latest.temperature.skinC incoming.temperature.skinC ∧
      (incoming.heart.bpm = some 0 →
        (mergeData latest incoming).heart.bpm = latest.heart.bpm)) := by
  have hkeep : ∀ e i : JSNum, i = some 0 → mergeValue e i = e := by
    intro e i h
    subst h
    by_cases he : e = some 0
    · subst he; decide
    · simp [mergeValue, he]
  constructor
  · intro e i
    refine ⟨hkeep e i, ?_⟩
    intro h
    simp [mergeValue, h]
  · intro l i
    exact ⟨rfl, rfl, rfl, rfl, rfl, rfl, rfl, rfl, rfl, rfl,
      fun h => hkeep l.heart.bpm i.heart.bpm h⟩

/-- Witness for C2: the reading decoded from the concrete Total packet
`totalPacketX` carries `heart.bpm = 0`, and merging it into an existing
reading with `heart.bpm = 82` keeps 82. -/
theorem claim_C2_witness : (mergeData dp0 incT).heart.bpm = some 82 := by
  have h := (claim_C2.2 dp0 incT).2.2.2.2.2.2.2.2.2.2 (by decide)
  rw [h]
  decide

/-- C3: the decode buffer never exceeds 10,000 characters at the end of
any fragment-arrival handler invocation; and a buffer of exactly 41,000
characters of non-terminating garbage is cleared entirely with the
overflow condition signalled exactly once (one handler invocation, one
overflow signal, no extracted message). -/
theorem claim_C3 :
    (∀ buf frag : JStr, (handleFragment buf frag).buffer.length ≤ 10000) ∧
    handleFragment [] garbage41k = ⟨[], [], true⟩ := by
  constructor
  · intro buf frag
    unfold handleFragment
    cases hd : decide (10000 < (jsonStage (buf ++ frag)).1.length) with
    | true =>
      simp only [hd, if_true]
      exact le_trans (processLoopF_buffer_le _ _) (by simp)
    | false =>
      simp only [hd]
      have h1 := processLoopF_buffer_le ((jsonStage (buf ++ frag)).1.length + 1)
        (jsonStage (buf ++ frag)).1
      have h2 : ¬ (10000 < (jsonStage (buf ++ frag)).1.length) := of_decide_eq_false hd
      simp only [Bool.false_eq_true, if_false]
      omega
  · have hnl : '\n' ∉ garbage41k := by
      intro hm
      rcases List.mem_cons.mp hm with h | h
      · exact absurd h (by decide)
      · exact absurd (List.eq_of_mem_replicate h) (by decide)
    have hbr : ∀ ch ∈ garbage41k, ch ≠ '{' ∧ ch ≠ '}' := by
      intro ch hm
      rcases List.mem_cons.mp hm with h | h
      · subst h; exact ⟨by decide, by decide⟩
      · rw [List.eq_of_mem_replicate h]; exact ⟨by decide, by decide⟩
    have hdup : ¬ garbage41k.take 20 = (garbage41k.drop 20).take 20 := by
      have h1 : garbage41k.take 20 = 'a' :: List.replicate 19 'b' := by
        show List.take (19 + 1) ('a' :: List.replicate 40999 'b') = _
        rw [List.take_succ_cons, List.take_replicate]
        norm_num
      have h2 : (garbage41k.drop 20).take 20 = List.replicate 20 'b' := by
        show (List.drop (19 + 1) ('a' :: List.replicate 40999 'b')).take 20 = _
        rw [List.drop_succ_cons, List.drop_replicate, List.take_replicate]
        norm_num
      rw [h1, h2]
      intro he
      rw [show List.replicate 20 'b' = 'b' :: List.replicate 19 'b' from rfl] at he
      exact absurd (List.head_eq_of_cons_eq he) (by decide)
    have hjs : jsonStage garbage41k = (garbage41k, []) := jsonStage_inert hdup hbr
    have hlen : garbage41k.length = 41000 := by
      show ('a' :: List.replicate 40999 'b').length = 41000
      rw [List.length_cons, List.length_replicate]
    have hov : decide (10000 < garbage41k.length) = true := by
      rw [hlen]; decide
    unfold handleFragment
    rw [List.nil_append, hjs]
    simp only [hov]
    simp [processLoopF, idxOfChar, extractPacket]

/-- C4: on a `T`- or `S`-prefixed buffer containing no newline, the
reassembler's terminator is exactly the greatest position holding a `'D'`
that is not immediately preceded by another `'D'`, and the extracted
message is the buffer prefix through that position (both at the level of
the packet-extraction step and as the first message of the extraction
loop). -/
theorem claim_C4 (wb : JStr) (i : Nat)
    (hhead : wb.head? = some 'T' ∨ wb.head? = some 'S')
    (hnl : '\n' ∉ wb)
    (hi : isLoneD wb i)
    (hmax : ∀ j, j < wb.length → isLoneD wb j → j ≤ i) :
    extractPacket wb = some (wb.take (i + 1)) ∧
    (processLoopF (wb.length + 1) wb).2.head? = some (wb.take (i + 1)) := by
  have hilt : i < wb.length := by
    by_contra hge
    have hnone : wb.get? i = none := List.get?_eq_none.mpr (le_of_not_lt hge)
    have := hi.1
    rw [hnone] at this
    exact absurd this (by simp)
  have hlast : lastLoneD wb = some i :=
    lastLoneDAux_eq_some wb i wb.length hilt hi
      (fun j h1 h2 hj => absurd (hmax j h2 hj) (by omega))
  have h0 : 0 < i := by
    rcases Nat.eq_zero_or_pos i with h | h
    · exfalso
      subst h
      have hg0 := (head?_eq_get?_zero wb).trans hi.1
      rcases hhead with hh | hh <;> rw [hh] at hg0 <;> exact absurd hg0 (by decide)
    · exact h
  have hext : extractPacket wb = some (wb.take (i + 1)) := by
    rcases hhead with hh | hh <;>
      simp [extractPacket, hh, hlast, h0]
  refine ⟨hext, ?_⟩
  unfold processLoopF
  rw [idxOfChar_eq_none hnl, hext]
  simp

/-- Witness for C4 at the concrete buffer `"T1D2D"`, whose greatest lone
`'D'` sits at index 4. -/
theorem claim_C4_witness :
    extractPacket (js "T1D2D") = some ((js "T1D2D").take 5) ∧
    (processLoopF ((js "T1D2D").length + 1) (js "T1D2D")).2.head?
      = some ((js "T1D2D").take 5) :=
  claim_C4 (js "T1D2D") 4 (by decide) (by decide) (by decide)
    (by decide)

/-- C9: `parsePacket` is a total function into `Option`; it returns `null`
(`none`) on blank input, on an unknown leading character, and on each
per-type minimum-length validation failure. -/
theorem claim_C9 (s : JStr)
    (h : jsTrim s = [] ∨
      (∃ c, (jsTrim s).head? = some c ∧ c ≠ 'L' ∧ c ≠ 'T' ∧ c ≠ 'S') ∨
      ((jsTrim s).head? = some 'L' ∧ (jsTrim s).length < 70) ∨
      ((jsTrim s).head? = some 'T' ∧ (jsTrim s).length < 73) ∨
      ((jsTrim s).head? = some 'S' ∧ (jsTrim s).length < 30)) :
    parsePacket s = none := by
  unfold parsePacket
  rcases h with h | ⟨c, hc, h1, h2, h3⟩ | ⟨hc, hlen⟩ | ⟨hc, hlen⟩ | ⟨hc, hlen⟩
  · rw [h]
    rfl
  · simp [hc, h1, h2, h3]
  · simp [hc, parseLivePacket, hlen]
  · simp [hc, parseTotalPacket, hlen]
  · simp [hc, parseStatusPacket, hlen]

/-- Witness for C9 at an unknown leading character. -/
theorem claim_C9_witness : parsePacket (js "X123") = none :=
  claim_C9 (js "X123")
    (Or.inr (Or.inl ⟨'X', by decide, by decide, by decide, by decide⟩))

/-- C5 counterexample: `livePacketA` is a well-formed Live packet (it
decodes as Live), but its coordinate fields are all zeros, so the decoded
partial reading has `gps.lat = gps.lon = 0` and the registry update
*merges it into* the most recent reading instead of appending: the history
length stays 1 where an append would give 2.  A Live-sourced partial is
therefore not always appended. -/
theorem claim_C5_counterexample :
    (parsePacket livePacketA).map (·.isLive) = some true ∧
    ((parseBLEData livePacketA (js "now") 0).map
      (fun r => (applyReading (some [dp0]) r.2).length)) = some 1 ∧
    ((parseBLEData livePacketA (js "now") 0).map
      (fun r => (slice6 ([dp0] ++ [r.2])).length)) = some 2 :=
  ⟨by decide, by decide, by decide⟩

/-- C5 (amended): with a non-empty existing history, a partial reading is
appended as a new reading exactly when both its `gps.lat` and `gps.lon`
are non-zero (the code's `isNewLivePacket` test — Live packets whose
coordinate fields fail to parse fall into the merge branch instead);
otherwise it is merged into the most recent reading in place; and after
every apply the history holds at most 6 entries. -/
theorem claim_C5_amended :
    (∀ (d : DataPoint) (ds : List DataPoint) (p : DataPoint),
      (p.gps.lat ≠ some 0 ∧ p.gps.lon ≠ some 0 →
        applyReading (some (d :: ds)) p = slice6 ((d :: ds) ++ [p])) ∧
      (p.gps.lat = some 0 ∨ p.gps.lon = some 0 →
        applyReading (some (d :: ds)) p =
          slice6 ((d :: ds).dropLast ++
            [mergeData ((d :: ds).getLast (List.cons_ne_nil d ds)) p]))) ∧
    (∀ (e : Option (List DataPoint)) (p : DataPoint),
      (applyReading e p).length ≤ 6) := by
  have hslice : ∀ (l : List DataPoint), (slice6 l).length ≤ 6 := by
    intro l
    simp only [slice6, List.length_drop]
    omega
  constructor
  · intro d ds p
    constructor
    · intro h
      simp [applyReading, h]
    · intro h
      have hneg : ¬ (p.gps.lat ≠ some 0 ∧ p.gps.lon ≠ some 0) := by
        rcases h with h | h <;> simp [h]
      simp [applyReading, hneg]
    
  · intro e p
    match e with
    | none => simp [applyReading]
    | some [] => simp [applyReading]
    | some (d :: ds) =>
      by_cases h : p.gps.lat ≠ some 0 ∧ p.gps.lon ≠ some 0
      · simp only [applyReading]
        rw [if_pos h]
        exact hslice _
      · simp only [applyReading]
        rw [if_neg h]
        exact hslice _

/-- Witness for the amended C5: a partial with non-zero coordinates is
appended to a one-entry history. -/
theorem claim_C5_amended_witness :
    applyReading (some [dp0]) dpLive1 = slice6 ([dp0] ++ [dpLive1]) :=
  (claim_C5_amended.1 dp0 [] dpLive1).1 ⟨by decide, by decide⟩

/-- C6 counterexample: the generator-formatted Live packet `livePacketC`
carries the CRC-8 of its own body, whose hex rendering is `"ED"` — it
contains the terminator character.  The packet decodes successfully, but
the crc field the decoder exposes is `"E"`, not the CRC-8 value `"ED"`
computed over the bytes preceding the checksum field; the decoder
therefore does not expose the computed CRC-8 for every decoded packet. -/
theorem claim_C6_counterexample :
    liveBodyC = livePacketC.take 67 ∧
    livePacketC = liveBodyC ++ hex2 (calculateCRC8 liveBodyC) ++ js "D" ∧
    (parseLivePacket livePacketC).isSome = true ∧
    (parseLivePacket livePacketC).map (·.crc) = some (js "E") ∧
    hex2 (calculateCRC8 liveBodyC) = js "ED" ∧
    js "E" ≠ js "ED" :=
  ⟨by decide, by decide, by decide, by decide, by decide, by decide⟩

/-- C6 (amended): the generator computes CRC-8 with polynomial `0x07`,
initial value 0, MSB-first over all bytes preceding the checksum field and
appends it as two uppercase hex characters; the pinned reference vector is
CRC-8("L01") = `0x12`; the decoder exposes the crc field it extracts from
the received packet, which equals the generator's computed hex whenever
that hex contains no `'D'` (witnessed by the concrete generator packet
`livePacketA`); when the hex contains a `'D'` the exposed field is
truncated (see the counterexample). -/
theorem claim_C6_amended :
    calculateCRC8 (js "L01") = 18 ∧
    hex2 (calculateCRC8 (js "L01")) = js "12" ∧
    livePacketA = liveBodyA ++ hex2 (calculateCRC8 liveBodyA) ++ js "D" ∧
    liveBodyA = livePacketA.take 67 ∧
    (parseLivePacket livePacketA).map (·.crc)
      = some (hex2 (calculateCRC8 liveBodyA)) :=
  ⟨by decide, by decide, by decide, by decide, by decide⟩

/-- C7 counterexample: decoding the JSON message
`{"patientId":"p2","heart":{"bpm":77}}` yields `temperature.skinC = 36.5`,
not the claimed default `0` for a missing numeric field. -/
theorem claim_C7_counterexample :
    ((parseBLEData (js "\x7b\"patientId\":\"p2\",\"heart\":\x7b\"bpm\":77\x7d\x7d")
        (js "now") 0).map (fun r => r.2.temperature.skinC))
      = some (some (36.5 : ℚ)) ∧
    some (some (36.5 : ℚ)) ≠ some (some (0 : ℚ)) :=
  ⟨by decide, by decide⟩

/-- C7 (amended): the JSON message `{"patientId":"p2","heart":{"bpm":77}}`
decodes to patient id `p2` and a reading with `heart.bpm = 77` and every
other field at its implemented default: `0` for the missing numeric fields
except `temperature.skinC`, which defaults to `36.5`; `"Z1"` and `"left"`
for the missing string fields; and the current time as timestamp. -/
theorem claim_C7_amended :
    parseBLEData (js "\x7b\"patientId\":\"p2\",\"heart\":\x7b\"bpm\":77\x7d\x7d")
        (js "now") 0 =
      some (js "p2",
        { timestamp := js "now"
          gps := { lat := some 0, lon := some 0, speedKmh := some 0,
                   distanceTotalM := some 0 }
          heart := { bpm := some 77, rrMs := some 0, maxBpmSession := some 0 }
          movement := { metabolicPowerWkg := some 0, activityZone := js "Z1",
                        stepBalanceSide := js "left", stepBalancePercent := some 0 }
          temperature := { skinC := some (36.5 : ℚ) } }) := by
  decide

/-- C8 counterexample: feeding the spec's example fragments to a fresh
reassembler extracts no message at all (the concatenation is `L`-prefixed
but contains no `"DD"`), so it does not reassemble into one Live packet;
and even decoding the 69-character concatenation directly returns `null`
(it is below the 70-character Live minimum, i.e. `Truncated`). -/
theorem claim_C8_counterexample :
    (feedAll c8frags).messages = [] ∧
    ([] : List JStr) ≠ [c8concat] ∧
    parsePacket c8concat = none :=
  ⟨by decide, by decide, by decide⟩

/-- C8 (amended): the example fragments accumulate unconsumed — after
feeding all thirteen fragments the buffer holds exactly their 69-character
concatenation, no message was extracted and no overflow was signalled —
and direct decode of the concatenation returns `null` because it is
shorter than the 70-character Live minimum. -/
theorem claim_C8_amended :
    (feedAll c8frags).buffer = c8concat ∧
    (feedAll c8frags).messages = [] ∧
    (feedAll c8frags).overflowCount = 0 ∧
    c8concat.length = 69 ∧
    c8concat.head? = some 'L' ∧
    firstDD c8concat = none ∧
    parsePacket c8concat = none :=
  ⟨by decide, by decide, by decide, by decide, by decide, by decide, by decide⟩

/-- C10: pod identifiers are normalised by `parseInt` (stripping leading
zeros) on the packet side and by the `'p'`-prefix rule on the registry
side: the Live packet `livePacketA` and the Total packet `totalPacketX`
(both pod `"01"`) and the JSON messages with patient ids `"1"` and `"p1"`
all map to the same registry key `"ble-p1"`. -/
theorem claim_C10 :
    ((parseBLEData livePacketA (js "now") 0).map (fun r => patientKeyOf r.1))
      = some (js "ble-p1") ∧
    ((parseBLEData totalPacketX (js "now") 0).map (fun r => patientKeyOf r.1))
      = some (js "ble-p1") ∧
    ((parseBLEData (js "\x7b\"patientId\":\"1\"\x7d") (js "now") 0).map
      (fun r => patientKeyOf r.1)) = some (js "ble-p1") ∧
    ((parseBLEData (js "\x7b\"patientId\":\"p1\"\x7d") (js "now") 0).map
      (fun r => patientKeyOf r.1)) = some (js "ble-p1") :=
  ⟨by decide, by decide, by decide, by decide⟩
